import Mathlib

/-!
Shallow embedding of the Terrapane `RandomGenerator` (random_generator.cpp /
random_generator.h) and proofs about it.

Modelling conventions:
* An octet is a `Nat` (values kept below 256 where it matters; XOR is `^^^`).
* Buffers are `List Nat`; a POSIX `read` into the middle of a buffer is
  `writeAt`.
* The C++ standard library collaborators (`std::mt19937`,
  `std::random_device`, the system clock, `open`/`read`, `BCryptGenRandom`)
  are environment oracles passed as explicit parameters:
  - `mt : Nat → Nat → Nat` gives the raw output stream of a `std::mt19937`
    engine: `mt seed i` is the i-th raw draw of an engine seeded with `seed`.
    The engine state is `Engine` (seed plus number of draws made).
  - `ReadEnv` gives, for each `read` request length, the octets the device
    delivers (an empty list models a 0 or negative return).
  - `ConstructEnv` gives the results of the two `open` calls, the
    `std::random_device` seed (`none` models the throw), and the clock.
-/

set_option autoImplicit false

namespace Terra.Random

/-- Octet at index `i` of a buffer, 0 when out of range. -/
def nthOct (l : List Nat) (i : Nat) : Nat :=
  l.getD i 0

/-- Overwrite the front of `buf` with `data`, keeping `buf`'s length:
excess octets of `data` beyond `buf`'s length are dropped (never triggered
by the call sites below, where `data` always fits). -/
def overwrite : List Nat → List Nat → List Nat
  | buf, [] => buf
  | [], _ => []
  | _ :: bs, d :: ds => d :: overwrite bs ds

/-- Model of `read(fd, buffer.data() + off, ...)` delivering `data`:
overwrite `buf` starting at offset `off`. -/
def writeAt : List Nat → Nat → List Nat → List Nat
  | buf, 0, data => overwrite buf data
  | [], _ + 1, _ => []
  | b :: bs, o + 1, data => b :: writeAt bs o data

/-- State of the deterministic PRNG engine (`std::mt19937 random_engine`,
header line 57): the seed it was last seeded with, plus how many raw draws
have been made.  The raw outputs themselves come from the `mt` oracle. -/
structure Engine where
  seed : Nat
  index : Nat
deriving DecidableEq

/-- Engine state right after `seed(s)`: no draws made yet. -/
def Engine.fresh (s : Nat) : Engine :=
  ⟨s, 0⟩

/-- Engine state after `n` further raw draws. -/
def Engine.advance (e : Engine) (n : Nat) : Engine :=
  ⟨e.seed, e.index + n⟩

/-- `std::uniform_int_distribution<std::mt19937::result_type>` with inclusive
bounds `a`, `b` (header line 56; constructed with `(0, 255)`). -/
structure UniformIntDistribution where
  a : Nat
  b : Nat
deriving DecidableEq

/-- Mapping of one raw engine draw into `[a, b]`.  The exact mapping is
implementation-defined by the C++ standard; what the standard guarantees is
that the result lies in `[a, b]`, which this model satisfies. -/
def UniformIntDistribution.apply (d : UniformIntDistribution) (raw : Nat) : Nat :=
  d.a + raw % (d.b - d.a + 1)

/-- The `RandomGenerator` object (header lines 41-63).  The two file
descriptors exist on the POSIX compilation path; on the Windows path they
are simply unused by the functions modelling that path. -/
structure RandomGenerator where
  pseudo_random_only : Bool
  distribution : UniformIntDistribution
  random_engine : Engine
  random_fd : Int
  pseudo_random_fd : Int
deriving DecidableEq

/-- Environment of one constructor run: results of
`open("/dev/random", ...)` and `open("/dev/urandom", ...)` (-1 models
failure), the `std::random_device()()` value (`none` models the throw),
and the clock readings at member initialization and inside the catch
handler. -/
structure ConstructEnv where
  open_random : Int
  open_urandom : Int
  random_device_seed : Option Nat
  clock_init : Nat
  clock_catch : Nat
deriving DecidableEq

/-- `RandomGenerator::RandomGenerator(bool)` (lines 54-87).  The member
initializer seeds the engine from `clock_init`, but the body always calls
`seed` again — from `std::random_device` when it does not throw, else from
the clock — so the engine leaving the constructor is the re-seeded one.
Construction is total: no failure escapes. -/
def RandomGenerator.construct (pseudo_random_only : Bool) (env : ConstructEnv) :
    RandomGenerator :=
  let fds : Int × Int :=
    if pseudo_random_only then (-1, -1) else (env.open_random, env.open_urandom)
  let seeded : Engine :=
    match env.random_device_seed with
    | some s => Engine.fresh s
    | none => Engine.fresh env.clock_catch
  { pseudo_random_only := pseudo_random_only
    distribution := ⟨0, 255⟩
    random_engine := seeded
    random_fd := fds.1
    pseudo_random_fd := fds.2 }

/-- Per-`read` behaviour of the OS devices in one `SourceRandomOctets`
call: given the requested length, the octets delivered ([] models a read
returning 0 or an error). -/
structure ReadEnv where
  primary : Nat → List Nat
  secondary : Nat → List Nat

/-- `RandomGenerator::GetPseudoRandomOctet` (lines 219-222): one draw of
`distribution(random_engine)`. -/
def GetPseudoRandomOctet (mt : Nat → Nat → Nat) (g : RandomGenerator) :
    Nat × RandomGenerator :=
  (g.distribution.apply (mt g.random_engine.seed g.random_engine.index),
   { g with random_engine := ⟨g.random_engine.seed, g.random_engine.index + 1⟩ })

/-- `RandomGenerator::SourceRandomOctets` (lines 242-279), POSIX path.
Returns the buffer contents after the reads together with
`octets_sourced`.  A `read` result is truncated to the requested length
(POSIX: a read never returns more than requested); an empty result models
a return of 0 or -1, in which case nothing is written and nothing is
counted. -/
def SourceRandomOctets (g : RandomGenerator) (env : ReadEnv) (buffer : List Nat) :
    List Nat × Nat :=
  if buffer.length = 0 ∨ g.pseudo_random_only = true then (buffer, 0) else
  let first : List Nat :=
    if 0 ≤ g.random_fd then (env.primary buffer.length).take buffer.length else []
  let buf1 : List Nat := writeAt buffer 0 first
  if first.length < buffer.length ∧ 0 ≤ g.pseudo_random_fd then
    let second : List Nat :=
      (env.secondary (buffer.length - first.length)).take
        (buffer.length - first.length)
    (writeAt buf1 first.length second, first.length + second.length)
  else (buf1, first.length)

/-- `RandomGenerator::SourceRandomOctets` (lines 242-279), Windows path:
one `BCryptGenRandom` call over the whole buffer.  `ok` is whether the call
returned `STATUS_SUCCESS`; on success the call fills the entire buffer with
octets from the `fill` oracle, on failure `octets_sourced` stays 0 (the
buffer contents carry no counted contribution). -/
def SourceRandomOctetsWin (g : RandomGenerator) (ok : Bool) (fill : Nat → Nat)
    (buffer : List Nat) : List Nat × Nat :=
  if buffer.length = 0 ∨ g.pseudo_random_only = true then (buffer, 0) else
  if ok then ((List.range buffer.length).map fill, buffer.length)
  else (buffer, 0)

/-- `RandomGenerator::GetRandomOctet` (lines 128-139): source one octet from
the OS over a one-octet zero-initialized buffer, then XOR with one PRNG
draw. -/
def GetRandomOctet (mt : Nat → Nat → Nat) (env : ReadEnv) (g : RandomGenerator) :
    Nat × RandomGenerator :=
  let sourced := SourceRandomOctets g env [0]
  let draw := GetPseudoRandomOctet mt g
  (nthOct sourced.1 0 ^^^ draw.1, draw.2)

/-- The XOR loop shared by both `GetRandomOctets` overloads (lines 169 and
201): XOR one fresh PRNG draw onto every position, left to right. -/
def xorWithPrng (mt : Nat → Nat → Nat) :
    RandomGenerator → List Nat → List Nat × RandomGenerator
  | g, [] => ([], g)
  | g, o :: rest =>
    let draw := GetPseudoRandomOctet mt g
    let tail := xorWithPrng mt draw.2 rest
    ((o ^^^ draw.1) :: tail.1, tail.2)

/-- `RandomGenerator::GetRandomOctets(std::size_t)` (lines 157-172): the
allocating overload.  `std::vector<std::uint8_t> octets(count)` is a
zero-initialized buffer of length `count`. -/
def GetRandomOctetsAlloc (mt : Nat → Nat → Nat) (env : ReadEnv)
    (g : RandomGenerator) (count : Nat) : List Nat × RandomGenerator :=
  let octets := List.replicate count 0
  if count = 0 then ([], g) else
  let sourced := SourceRandomOctets g env octets
  xorWithPrng mt g sourced.1

/-- `RandomGenerator::GetRandomOctets(std::span<std::uint8_t>)` (lines
191-202): the in-place overload over the caller's buffer. -/
def GetRandomOctetsSpan (mt : Nat → Nat → Nat) (env : ReadEnv)
    (g : RandomGenerator) (octets : List Nat) : List Nat × RandomGenerator :=
  if octets.length = 0 then (octets, g) else
  let sourced := SourceRandomOctets g env octets
  xorWithPrng mt g sourced.1

/-- `n` successive calls of `GetRandomOctet`, collecting the octets. -/
def iterateGetRandomOctet (mt : Nat → Nat → Nat) (env : ReadEnv) :
    Nat → RandomGenerator → List Nat × RandomGenerator
  | 0, g => ([], g)
  | n + 1, g =>
    let head := GetRandomOctet mt env g
    let tail := iterateGetRandomOctet mt env n head.2
    (head.1 :: tail.1, tail.2)

/-- One public retrieval call, for stating lifetime invariants. -/
inductive Operation where
  | getOctet : ReadEnv → Operation
  | getOctetsAlloc : ReadEnv → Nat → Operation
  | getOctetsSpan : ReadEnv → List Nat → Operation

/-- The generator state after one public retrieval call. -/
def applyOperation (mt : Nat → Nat → Nat) (g : RandomGenerator) :
    Operation → RandomGenerator
  | .getOctet env => (GetRandomOctet mt env g).2
  | .getOctetsAlloc env n => (GetRandomOctetsAlloc mt env g n).2
  | .getOctetsSpan env buf => (GetRandomOctetsSpan mt env g buf).2

/-- The generator state after a whole sequence of public retrieval calls. -/
def runOperations (mt : Nat → Nat → Nat) :
    RandomGenerator → List Operation → RandomGenerator
  | g, [] => g
  | g, op :: ops => runOperations mt (applyOperation mt g op) ops

/-- The octet the `i`-th PRNG draw after state `g` produces. -/
def prngOctetAt (mt : Nat → Nat → Nat) (g : RandomGenerator) (i : Nat) : Nat :=
  g.distribution.apply (mt g.random_engine.seed (g.random_engine.index + i))

/-! ### Buffer lemmas -/

theorem overwrite_length (buf data : List Nat) :
    (overwrite buf data).length = buf.length := by
  induction buf generalizing data with
  | nil => cases data <;> rfl
  | cons b bs ih =>
    cases data with
    | nil => rfl
    | cons d ds => simpa [overwrite] using ih ds

theorem writeAt_length (buf : List Nat) (off : Nat) (data : List Nat) :
    (writeAt buf off data).length = buf.length := by
  induction buf generalizing off data with
  | nil =>
    cases off with
    | zero => simp [writeAt, overwrite_length]
    | succ o => rfl
  | cons b bs ih =>
    cases off with
    | zero => simp [writeAt, overwrite_length]
    | succ o => simp [writeAt, ih]

theorem writeAt_nil (buf : List Nat) (off : Nat) : writeAt buf off [] = buf := by
  induction buf generalizing off with
  | nil => cases off <;> rfl
  | cons b bs ih =>
    cases off with
    | zero => rfl
    | succ o => simp [writeAt, ih]

theorem nthOct_overwrite_ge (buf data : List Nat) (i : Nat)
    (h : data.length ≤ i) :
    nthOct (overwrite buf data) i = nthOct buf i := by
  induction buf generalizing data i with
  | nil =>
    cases data with
    | nil => rfl
    | cons d ds => rfl
  | cons b bs ih =>
    cases data with
    | nil => rfl
    | cons d ds =>
      cases i with
      | zero => simp at h
      | succ j =>
        simp only [overwrite, nthOct, List.getD_cons_succ]
        exact ih ds j (by simpa using h)

theorem nthOct_writeAt_ge (buf : List Nat) (off : Nat) (data : List Nat) (i : Nat)
    (h : off + data.length ≤ i) :
    nthOct (writeAt buf off data) i = nthOct buf i := by
  induction buf generalizing off data i with
  | nil =>
    cases off with
    | zero => exact nthOct_overwrite_ge [] data i (by omega)
    | succ o => rfl
  | cons b bs ih =>
    cases off with
    | zero => exact nthOct_overwrite_ge (b :: bs) data i (by omega)
    | succ o =>
      cases i with
      | zero => omega
      | succ j =>
        simp only [writeAt, nthOct, List.getD_cons_succ]
        exact ih o data j (by omega)

/-! ### SourceRandomOctets lemmas -/

theorem sourceRandomOctets_length (g : RandomGenerator) (env : ReadEnv)
    (buffer : List Nat) :
    (SourceRandomOctets g env buffer).1.length = buffer.length := by
  unfold SourceRandomOctets
  split
  · rfl
  · dsimp only
    split <;> split <;> simp [writeAt_length]

theorem sourceRandomOctets_count_le (g : RandomGenerator) (env : ReadEnv)
    (buffer : List Nat) :
    (SourceRandomOctets g env buffer).2 ≤ buffer.length := by
  unfold SourceRandomOctets
  split
  · simp
  · dsimp only
    split <;> split <;>
      (dsimp only; simp only [List.length_take, List.length_nil]; omega)

theorem sourceRandomOctets_suffix (g : RandomGenerator) (env : ReadEnv)
    (buffer : List Nat) (i : Nat)
    (h : (SourceRandomOctets g env buffer).2 ≤ i) :
    nthOct (SourceRandomOctets g env buffer).1 i = nthOct buffer i := by
  revert h
  unfold SourceRandomOctets
  split
  · intro _; rfl
  · dsimp only
    split <;> split <;> intro h <;>
      first
        | rw [nthOct_writeAt_ge _ _ _ _ (by omega),
            nthOct_writeAt_ge _ _ _ _ (by omega)]
        | rw [nthOct_writeAt_ge _ _ _ _ (by omega)]

theorem sourceRandomOctets_pro (g : RandomGenerator) (env : ReadEnv)
    (buffer : List Nat) (h : g.pseudo_random_only = true) :
    SourceRandomOctets g env buffer = (buffer, 0) := by
  unfold SourceRandomOctets
  split
  · rfl
  · rename_i hc
    exact absurd (Or.inr h) hc

theorem sourceRandomOctets_empty (g : RandomGenerator) (env : ReadEnv) :
    SourceRandomOctets g env [] = ([], 0) := by
  unfold SourceRandomOctets
  split
  · rfl
  · rename_i hc
    exact absurd (Or.inl rfl) hc

/-! ### PRNG lemmas -/

theorem getPseudoRandomOctet_state (mt : Nat → Nat → Nat) (g : RandomGenerator) :
    (GetPseudoRandomOctet mt g).2 =
      { g with random_engine := Engine.advance g.random_engine 1 } := rfl

theorem getPseudoRandomOctet_val (mt : Nat → Nat → Nat) (g : RandomGenerator) :
    (GetPseudoRandomOctet mt g).1 = prngOctetAt mt g 0 := by
  simp [GetPseudoRandomOctet, prngOctetAt]

theorem xorWithPrng_length (mt : Nat → Nat → Nat) (g : RandomGenerator)
    (buf : List Nat) :
    (xorWithPrng mt g buf).1.length = buf.length := by
  induction buf generalizing g with
  | nil => rfl
  | cons o rest ih => simp [xorWithPrng, ih]

theorem xorWithPrng_state (mt : Nat → Nat → Nat) (g : RandomGenerator)
    (buf : List Nat) :
    (xorWithPrng mt g buf).2 =
      { g with random_engine := Engine.advance g.random_engine buf.length } := by
  induction buf generalizing g with
  | nil => rfl
  | cons o rest ih =>
    show (xorWithPrng mt (GetPseudoRandomOctet mt g).2 rest).2 = _
    rw [ih]
    have harith : g.random_engine.index + 1 + rest.length
        = g.random_engine.index + (rest.length + 1) := by omega
    simp [GetPseudoRandomOctet, Engine.advance, harith]

theorem xorWithPrng_nth (mt : Nat → Nat → Nat) (g : RandomGenerator)
    (buf : List Nat) (i : Nat) (h : i < buf.length) :
    nthOct (xorWithPrng mt g buf).1 i = nthOct buf i ^^^ prngOctetAt mt g i := by
  induction buf generalizing g i with
  | nil => simp at h
  | cons o rest ih =>
    cases i with
    | zero =>
      simp [xorWithPrng, nthOct, prngOctetAt, GetPseudoRandomOctet]
    | succ j =>
      have hj : j < rest.length := by simpa using h
      show nthOct ((o ^^^ _) :: _) (j + 1) = _
      simp only [nthOct, List.getD_cons_succ]
      have step := ih (GetPseudoRandomOctet mt g).2 j hj
      simp only [nthOct] at step
      rw [step]
      simp only [GetPseudoRandomOctet, prngOctetAt]
      have harith : g.random_engine.index + 1 + j = g.random_engine.index + (j + 1) := by
        omega
      rw [harith]

/-! ### Field preservation across operations -/

theorem applyOperation_fields (mt : Nat → Nat → Nat) (g : RandomGenerator)
    (op : Operation) :
    (applyOperation mt g op).pseudo_random_only = g.pseudo_random_only ∧
    (applyOperation mt g op).random_fd = g.random_fd ∧
    (applyOperation mt g op).pseudo_random_fd = g.pseudo_random_fd := by
  cases op with
  | getOctet env =>
    exact ⟨rfl, rfl, rfl⟩
  | getOctetsAlloc env n =>
    by_cases hn : n = 0
    · simp [applyOperation, GetRandomOctetsAlloc, hn]
    · simp [applyOperation, GetRandomOctetsAlloc, hn, xorWithPrng_state]
  | getOctetsSpan env buf =>
    by_cases hb : buf.length = 0
    · simp [applyOperation, GetRandomOctetsSpan, hb]
    · simp [applyOperation, GetRandomOctetsSpan, hb, xorWithPrng_state]

theorem runOperations_fields (mt : Nat → Nat → Nat) (g : RandomGenerator)
    (ops : List Operation) :
    (runOperations mt g ops).pseudo_random_only = g.pseudo_random_only ∧
    (runOperations mt g ops).random_fd = g.random_fd ∧
    (runOperations mt g ops).pseudo_random_fd = g.pseudo_random_fd := by
  induction ops generalizing g with
  | nil => exact ⟨rfl, rfl, rfl⟩
  | cons op ops ih =>
    have h1 := applyOperation_fields mt g op
    have h2 := ih (applyOperation mt g op)
    exact ⟨h2.1.trans h1.1, h2.2.1.trans h1.2.1, h2.2.2.trans h1.2.2⟩

/-! ### Claims -/

/-- Claim C6: a zero-length request has no side effects: the allocating
overload at count 0 returns an empty sequence and the span overload on an
empty buffer returns immediately, in both cases leaving the generator
(PRNG state included) unchanged; the result is independent of the OS read
oracle and of the engine oracle, i.e. no OS device interaction and no PRNG
draw occurs. -/
theorem zero_length_request_no_side_effects (mt : Nat → Nat → Nat)
    (env : ReadEnv) (g : RandomGenerator) :
    GetRandomOctetsAlloc mt env g 0 = ([], g) ∧
    GetRandomOctetsSpan mt env g [] = ([], g) :=
  ⟨rfl, rfl⟩

/-- Claim C5: construction always succeeds (the constructor is a total
function into `RandomGenerator`) and seeding never fails outward: the
engine is seeded from the OS non-deterministic seed primitive when it
yields a value, and when that primitive throws (`none`) the failure is
absorbed and the engine is instead seeded from the clock timestamp taken
in the catch handler. -/
theorem construction_seeding_never_fails (pro : Bool) (cenv : ConstructEnv) :
    ((RandomGenerator.construct pro cenv).random_engine =
      match cenv.random_device_seed with
      | some s => Engine.fresh s
      | none => Engine.fresh cenv.clock_catch) ∧
    (cenv.random_device_seed = none →
      (RandomGenerator.construct pro cenv).random_engine =
        Engine.fresh cenv.clock_catch) ∧
    (∀ s, cenv.random_device_seed = some s →
      (RandomGenerator.construct pro cenv).random_engine = Engine.fresh s) := by
  refine ⟨rfl, ?_, ?_⟩
  · intro hn
    simp [RandomGenerator.construct, hn]
  · intro s hs
    simp [RandomGenerator.construct, hs]

/-- Instance of `construction_seeding_never_fails` at a concrete
environment whose seed primitive throws: the engine is clock-seeded. -/
theorem construction_seeding_never_fails_witness :
    (RandomGenerator.construct false ⟨3, 4, none, 11, 13⟩).random_engine =
      Engine.fresh 13 :=
  (construction_seeding_never_fails false ⟨3, 4, none, 11, 13⟩).2.1 rfl

/-- Claim C8: a PRNG draw never fails (it is a total function), is a
deterministic function of the engine state and distribution (equal states
give equal octets), advances the engine state on every call, and — the
distribution being constructed with bounds 0 and 255 — returns a value in
[0, 255]. -/
theorem prng_draw_deterministic_advances_in_range (mt : Nat → Nat → Nat)
    (g : RandomGenerator) :
    (GetPseudoRandomOctet mt g).2 =
      { g with random_engine := Engine.advance g.random_engine 1 } ∧
    (GetPseudoRandomOctet mt g).2.random_engine ≠ g.random_engine ∧
    (∀ g2 : RandomGenerator, g2.random_engine = g.random_engine →
      g2.distribution = g.distribution →
      (GetPseudoRandomOctet mt g2).1 = (GetPseudoRandomOctet mt g).1) ∧
    (g.distribution = ⟨0, 255⟩ → (GetPseudoRandomOctet mt g).1 ≤ 255) ∧
    (∀ (pro : Bool) (cenv : ConstructEnv),
      (RandomGenerator.construct pro cenv).distribution = ⟨0, 255⟩) := by
  refine ⟨rfl, ?_, ?_, ?_, fun pro cenv => rfl⟩
  · intro hcontra
    have h2 := congrArg Engine.index hcontra
    simp [GetPseudoRandomOctet] at h2
  · intro g2 he hd
    simp [GetPseudoRandomOctet, he, hd]
  · intro hd
    have hlt := Nat.mod_lt (mt g.random_engine.seed g.random_engine.index)
      (show 0 < 256 by norm_num)
    simp [GetPseudoRandomOctet, hd, UniformIntDistribution.apply]
    omega

/-- Instance of `prng_draw_deterministic_advances_in_range` at a concrete
generator and engine oracle: the drawn octet is at most 255. -/
theorem prng_draw_range_witness :
    (GetPseudoRandomOctet (fun s i => s * 31 + i)
        (RandomGenerator.construct true ⟨-1, -1, some 7, 11, 13⟩)).1 ≤ 255 :=
  (prng_draw_deterministic_advances_in_range (fun s i => s * 31 + i)
    (RandomGenerator.construct true ⟨-1, -1, some 7, 11, 13⟩)).2.2.2.1 rfl

/-- Claim C4: constructing with `pseudo_random_only = true` sets both file
descriptors to -1 and the mode flag to true; these three fields are
preserved by every sequence of public retrieval calls (the invariant holds
for the instance's whole lifetime); and `SourceRandomOctets` returns 0
immediately — buffer untouched, for every OS oracle, hence before any
device access — whenever the generator is in pseudo-random-only mode or
the buffer is empty. -/
theorem pseudo_random_only_never_reads_os (cenv : ConstructEnv) :
    (RandomGenerator.construct true cenv).pseudo_random_only = true ∧
    (RandomGenerator.construct true cenv).random_fd = -1 ∧
    (RandomGenerator.construct true cenv).pseudo_random_fd = -1 ∧
    (∀ (mt : Nat → Nat → Nat) (ops : List Operation),
      (runOperations mt (RandomGenerator.construct true cenv)
        ops).pseudo_random_only = true ∧
      (runOperations mt (RandomGenerator.construct true cenv)
        ops).random_fd = -1 ∧
      (runOperations mt (RandomGenerator.construct true cenv)
        ops).pseudo_random_fd = -1) ∧
    (∀ (g : RandomGenerator) (env : ReadEnv) (buffer : List Nat),
      g.pseudo_random_only = true →
      SourceRandomOctets g env buffer = (buffer, 0)) ∧
    (∀ (g : RandomGenerator) (env : ReadEnv),
      SourceRandomOctets g env [] = ([], 0)) := by
  refine ⟨rfl, rfl, rfl, ?_, sourceRandomOctets_pro, sourceRandomOctets_empty⟩
  intro mt ops
  have h := runOperations_fields mt (RandomGenerator.construct true cenv) ops
  exact ⟨h.1, h.2.1, h.2.2⟩

/-- Instance of `pseudo_random_only_never_reads_os` at a concrete
pseudo-random-only generator and OS oracle: sourcing leaves the buffer
alone and reports 0. -/
theorem pseudo_random_only_never_reads_os_witness :
    SourceRandomOctets (RandomGenerator.construct true ⟨-1, -1, some 7, 11, 13⟩)
      ⟨fun n => List.replicate n 9, fun n => List.replicate n 9⟩ [5, 6] =
      ([5, 6], 0) :=
  (pseudo_random_only_never_reads_os ⟨-1, -1, some 7, 11, 13⟩).2.2.2.2.1
    (RandomGenerator.construct true ⟨-1, -1, some 7, 11, 13⟩)
    ⟨fun n => List.replicate n 9, fun n => List.replicate n 9⟩ [5, 6] rfl

/-- Claim C2: `GetRandomOctet` never fails (it is a total function), and
returns the octet sourced from the OS reader over a one-octet zeroed
buffer XORed with exactly one fresh PRNG draw; when the reader sources
zero octets the OS contribution is the value 0, so the result is the PRNG
octet itself; the PRNG state advances by exactly one draw. -/
theorem getRandomOctet_xor_of_os_and_prng (mt : Nat → Nat → Nat)
    (env : ReadEnv) (g : RandomGenerator) :
    (GetRandomOctet mt env g).1 =
      nthOct (SourceRandomOctets g env [0]).1 0 ^^^ prngOctetAt mt g 0 ∧
    ((SourceRandomOctets g env [0]).2 = 0 →
      (GetRandomOctet mt env g).1 = prngOctetAt mt g 0) ∧
    (GetRandomOctet mt env g).2 =
      { g with random_engine := Engine.advance g.random_engine 1 } := by
  refine ⟨?_, ?_, rfl⟩
  · simp [GetRandomOctet, getPseudoRandomOctet_val]
  · intro h0
    have hs := sourceRandomOctets_suffix g env [0] 0 (by omega)
    have hz : nthOct ([0] : List Nat) 0 = 0 := rfl
    rw [hz] at hs
    simp [GetRandomOctet, getPseudoRandomOctet_val, hs]

/-- Instance of `getRandomOctet_xor_of_os_and_prng` at a concrete
generator whose devices deliver nothing: the result is the pure PRNG
octet. -/
theorem getRandomOctet_xor_witness :
    (GetRandomOctet (fun s i => s * 31 + i) ⟨fun _ => [], fun _ => []⟩
        (RandomGenerator.construct false ⟨3, 4, some 7, 11, 13⟩)).1 =
      prngOctetAt (fun s i => s * 31 + i)
        (RandomGenerator.construct false ⟨3, 4, some 7, 11, 13⟩) 0 :=
  (getRandomOctet_xor_of_os_and_prng (fun s i => s * 31 + i)
    ⟨fun _ => [], fun _ => []⟩
    (RandomGenerator.construct false ⟨3, 4, some 7, 11, 13⟩)).2.1 rfl

/-! ### Further helper lemmas for the bulk-retrieval claims -/

theorem nthOct_replicate_zero (n i : Nat) : nthOct (List.replicate n 0) i = 0 := by
  induction n generalizing i with
  | zero => cases i <;> rfl
  | succ m ih =>
    cases i with
    | zero => rfl
    | succ j =>
      simp only [nthOct, List.replicate_succ, List.getD_cons_succ] at ih ⊢
      exact ih j

theorem getRandomOctetsAlloc_eq (mt : Nat → Nat → Nat) (env : ReadEnv)
    (g : RandomGenerator) (n : Nat) (hn : n ≠ 0) :
    GetRandomOctetsAlloc mt env g n =
      xorWithPrng mt g (SourceRandomOctets g env (List.replicate n 0)).1 := by
  unfold GetRandomOctetsAlloc
  dsimp only
  split
  · rename_i hc
    exact absurd hc hn
  · rfl

theorem getRandomOctetsSpan_eq (mt : Nat → Nat → Nat) (env : ReadEnv)
    (g : RandomGenerator) (buf : List Nat) (hb : buf.length ≠ 0) :
    GetRandomOctetsSpan mt env g buf =
      xorWithPrng mt g (SourceRandomOctets g env buf).1 := by
  unfold GetRandomOctetsSpan
  split
  · rename_i hc
    exact absurd hc hb
  · rfl

theorem getRandomOctet_pro (mt : Nat → Nat → Nat) (env : ReadEnv)
    (g : RandomGenerator) (h : g.pseudo_random_only = true) :
    GetRandomOctet mt env g = GetPseudoRandomOctet mt g := by
  unfold GetRandomOctet
  rw [sourceRandomOctets_pro g env [0] h]
  simp [nthOct]

theorem xorWithPrng_replicate_pro (mt : Nat → Nat → Nat) (env : ReadEnv)
    (g : RandomGenerator) (h : g.pseudo_random_only = true) (n : Nat) :
    xorWithPrng mt g (List.replicate n 0) = iterateGetRandomOctet mt env n g := by
  induction n generalizing g with
  | zero => rfl
  | succ m ih =>
    have hpro2 : (GetPseudoRandomOctet mt g).2.pseudo_random_only = true := h
    simp only [List.replicate_succ, xorWithPrng, iterateGetRandomOctet,
      getRandomOctet_pro mt env g h, ih _ hpro2, Nat.zero_xor]

/-! ### Remaining claims -/

/-- Claim C1: for every non-empty request of `n` octets, both bulk
overloads invoke the OS source once over the entire `n`-octet buffer and
then XOR into every position — whether or not the OS source filled it —
exactly one freshly drawn PRNG octet (the `i`-th position gets the `i`-th
draw, so the PRNG state advances exactly `n` draws), and the allocating
overload returns a sequence of exactly `n` octets. -/
theorem bulk_retrieval_one_read_one_draw_per_position (mt : Nat → Nat → Nat)
    (env : ReadEnv) (g : RandomGenerator) :
    (∀ n : Nat, n ≠ 0 →
      (GetRandomOctetsAlloc mt env g n).1.length = n ∧
      (GetRandomOctetsAlloc mt env g n).2 =
        { g with random_engine := Engine.advance g.random_engine n } ∧
      (∀ i, i < n →
        nthOct (GetRandomOctetsAlloc mt env g n).1 i =
          nthOct (SourceRandomOctets g env (List.replicate n 0)).1 i ^^^
            prngOctetAt mt g i)) ∧
    (∀ buf : List Nat, buf ≠ [] →
      (GetRandomOctetsSpan mt env g buf).1.length = buf.length ∧
      (GetRandomOctetsSpan mt env g buf).2 =
        { g with random_engine := Engine.advance g.random_engine buf.length } ∧
      (∀ i, i < buf.length →
        nthOct (GetRandomOctetsSpan mt env g buf).1 i =
          nthOct (SourceRandomOctets g env buf).1 i ^^^ prngOctetAt mt g i)) := by
  constructor
  · intro n hn
    have hsl : (SourceRandomOctets g env (List.replicate n 0)).1.length = n := by
      rw [sourceRandomOctets_length]
      exact List.length_replicate n 0
    rw [getRandomOctetsAlloc_eq mt env g n hn]
    refine ⟨?_, ?_, ?_⟩
    · rw [xorWithPrng_length, hsl]
    · rw [xorWithPrng_state, hsl]
    · intro i hi
      rw [xorWithPrng_nth mt g _ i (by rw [hsl]; exact hi)]
  · intro buf hb
    have hbl : buf.length ≠ 0 := fun hc => hb (List.length_eq_zero.mp hc)
    have hsl : (SourceRandomOctets g env buf).1.length = buf.length :=
      sourceRandomOctets_length g env buf
    rw [getRandomOctetsSpan_eq mt env g buf hbl]
    refine ⟨?_, ?_, ?_⟩
    · rw [xorWithPrng_length, hsl]
    · rw [xorWithPrng_state, hsl]
    · intro i hi
      rw [xorWithPrng_nth mt g _ i (by rw [hsl]; exact hi)]

/-- Instance of `bulk_retrieval_one_read_one_draw_per_position` at a
concrete generator, oracle and count 2: the result has exactly 2 octets
and position 0 is the sourced octet XOR the 0-th PRNG draw. -/
theorem bulk_retrieval_one_read_witness :
    (GetRandomOctetsAlloc (fun s i => s * 31 + i)
        ⟨fun n => List.replicate n 9, fun n => List.replicate n 9⟩
        (RandomGenerator.construct false ⟨3, 4, some 7, 11, 13⟩) 2).1.length = 2 ∧
    nthOct (GetRandomOctetsAlloc (fun s i => s * 31 + i)
        ⟨fun n => List.replicate n 9, fun n => List.replicate n 9⟩
        (RandomGenerator.construct false ⟨3, 4, some 7, 11, 13⟩) 2).1 0 =
      nthOct (SourceRandomOctets
          (RandomGenerator.construct false ⟨3, 4, some 7, 11, 13⟩)
          ⟨fun n => List.replicate n 9, fun n => List.replicate n 9⟩
          (List.replicate 2 0)).1 0 ^^^
        prngOctetAt (fun s i => s * 31 + i)
          (RandomGenerator.construct false ⟨3, 4, some 7, 11, 13⟩) 0 :=
  ⟨((bulk_retrieval_one_read_one_draw_per_position (fun s i => s * 31 + i)
      ⟨fun n => List.replicate n 9, fun n => List.replicate n 9⟩
      (RandomGenerator.construct false ⟨3, 4, some 7, 11, 13⟩)).1 2
      (by decide)).1,
   ((bulk_retrieval_one_read_one_draw_per_position (fun s i => s * 31 + i)
      ⟨fun n => List.replicate n 9, fun n => List.replicate n 9⟩
      (RandomGenerator.construct false ⟨3, 4, some 7, 11, 13⟩)).1 2
      (by decide)).2.2 0 (by decide)⟩

/-- Claim C3: POSIX mixed-mode sourcing over a non-empty buffer with both
devices open performs a single primary read into the start of the buffer;
only when it obtained fewer octets than the buffer length does it perform
a single secondary read into the remaining suffix, starting at the offset
already filled; the returned count is the sum of the octets the two reads
obtained, never exceeds the buffer length, and a shortfall is a smaller
count, never an error. -/
theorem source_posix_primary_then_secondary (g : RandomGenerator)
    (env : ReadEnv) (buffer : List Nat) (hne : buffer ≠ [])
    (hpro : g.pseudo_random_only = false) (hfd1 : 0 ≤ g.random_fd)
    (hfd2 : 0 ≤ g.pseudo_random_fd) :
    (let p := (env.primary buffer.length).take buffer.length
     let s := (env.secondary (buffer.length - p.length)).take
       (buffer.length - p.length)
     (p.length < buffer.length →
       SourceRandomOctets g env buffer =
         (writeAt (writeAt buffer 0 p) p.length s, p.length + s.length)) ∧
     (¬ p.length < buffer.length →
       SourceRandomOctets g env buffer = (writeAt buffer 0 p, p.length)) ∧
     (SourceRandomOctets g env buffer).2 ≤ buffer.length) := by
  have hlz : buffer.length ≠ 0 := fun hc => hne (List.length_eq_zero.mp hc)
  have hlen : ¬(buffer.length = 0 ∨ g.pseudo_random_only = true) := by
    intro hcontra
    cases hcontra with
    | inl hc => exact hlz hc
    | inr hc =>
      rw [hpro] at hc
      exact absurd hc (by decide)
  dsimp only
  refine ⟨?_, ?_, sourceRandomOctets_count_le g env buffer⟩
  · intro hlt
    unfold SourceRandomOctets
    rw [if_neg hlen, if_pos hfd1]
    dsimp only
    rw [if_pos (And.intro hlt hfd2)]
  · intro hge
    unfold SourceRandomOctets
    rw [if_neg hlen, if_pos hfd1]
    dsimp only
    rw [if_neg (fun hc => hge hc.1)]

/-- Instance of `source_posix_primary_then_secondary` at a concrete
environment where the primary device delivers 1 of 3 octets and the
secondary fills the suffix: the buffer becomes [9, 5, 5] and the count
is 3. -/
theorem source_posix_primary_then_secondary_witness :
    SourceRandomOctets (RandomGenerator.construct false ⟨3, 4, some 7, 11, 13⟩)
      ⟨fun _ => [9], fun n => List.replicate n 5⟩ [0, 0, 0] = ([9, 5, 5], 3) := by
  have h := source_posix_primary_then_secondary
    (RandomGenerator.construct false ⟨3, 4, some 7, 11, 13⟩)
    ⟨fun _ => [9], fun n => List.replicate n 5⟩ [0, 0, 0]
    (by decide) rfl (by decide) (by decide)
  exact (h.1 (by decide)).trans (by decide)

/-- Claim C7: the dedicated-RNG-API path is all-or-nothing: for every
non-empty buffer in mixed mode, if the single system call succeeds the
sourced count equals the full buffer length (and the buffer is entirely
filled by the call), on failure the count is 0, and no other count can be
returned — there is no partial fill on this path. -/
theorem source_windows_all_or_nothing (g : RandomGenerator) (ok : Bool)
    (fill : Nat → Nat) (buffer : List Nat) (hne : buffer ≠ [])
    (hpro : g.pseudo_random_only = false) :
    (SourceRandomOctetsWin g ok fill buffer).2 =
      (if ok then buffer.length else 0) ∧
    (ok = true →
      (SourceRandomOctetsWin g ok fill buffer).1 =
        (List.range buffer.length).map fill) ∧
    ((SourceRandomOctetsWin g ok fill buffer).2 = 0 ∨
      (SourceRandomOctetsWin g ok fill buffer).2 = buffer.length) := by
  have hlz : buffer.length ≠ 0 := fun hc => hne (List.length_eq_zero.mp hc)
  have hlen : ¬(buffer.length = 0 ∨ g.pseudo_random_only = true) := by
    intro hcontra
    cases hcontra with
    | inl hc => exact hlz hc
    | inr hc =>
      rw [hpro] at hc
      exact absurd hc (by decide)
  unfold SourceRandomOctetsWin
  rw [if_neg hlen]
  cases ok with
  | false => exact ⟨rfl, fun hc => absurd hc (by decide), Or.inl rfl⟩
  | true => exact ⟨rfl, fun _ => rfl, Or.inr rfl⟩

/-- Instance of `source_windows_all_or_nothing` at a concrete successful
call over a 2-octet buffer: the sourced count is the full length 2. -/
theorem source_windows_all_or_nothing_witness :
    (SourceRandomOctetsWin (RandomGenerator.construct false ⟨3, 4, some 7, 11, 13⟩)
        true (fun i => i + 1) [7, 7]).2 = 2 :=
  (source_windows_all_or_nothing
    (RandomGenerator.construct false ⟨3, 4, some 7, 11, 13⟩)
    true (fun i => i + 1) [7, 7] (by decide) rfl).1

/-- Claim C9: bulk retrieval refines the single-octet primitive applied
per position: in pseudo-random-only mode, `GetRandomOctets(n)` from a
given PRNG state returns exactly the same sequence of `n` octets (and the
same final state) as `n` successive `GetRandomOctet()` calls from that
state. -/
theorem bulk_refines_single_in_pro_mode (mt : Nat → Nat → Nat)
    (env : ReadEnv) (g : RandomGenerator) (n : Nat)
    (h : g.pseudo_random_only = true) :
    GetRandomOctetsAlloc mt env g n = iterateGetRandomOctet mt env n g := by
  cases n with
  | zero => rfl
  | succ m =>
    rw [getRandomOctetsAlloc_eq mt env g (m + 1) (Nat.succ_ne_zero m),
      sourceRandomOctets_pro g env _ h]
    exact xorWithPrng_replicate_pro mt env g h (m + 1)

/-- Instance of `bulk_refines_single_in_pro_mode` at a concrete
pseudo-random-only generator and count 3. -/
theorem bulk_refines_single_witness :
    GetRandomOctetsAlloc (fun s i => s * 31 + i) ⟨fun _ => [], fun _ => []⟩
        (RandomGenerator.construct true ⟨-1, -1, some 7, 11, 13⟩) 3 =
      iterateGetRandomOctet (fun s i => s * 31 + i) ⟨fun _ => [], fun _ => []⟩ 3
        (RandomGenerator.construct true ⟨-1, -1, some 7, 11, 13⟩) :=
  bulk_refines_single_in_pro_mode (fun s i => s * 31 + i)
    ⟨fun _ => [], fun _ => []⟩
    (RandomGenerator.construct true ⟨-1, -1, some 7, 11, 13⟩) 3 rfl

/-- Claim C10: the in-place span overload XORs onto the buffer's existing
contents rather than zeroing it first: every position the OS source did
not fill (every index at or beyond the sourced count) ends up as the
caller's prior octet XOR one PRNG octet; in particular in
pseudo-random-only mode every position `i` becomes `prior[i] ^^^` the
`i`-th PRNG draw; by contrast the allocating overload starts from
zero-initialized storage, so an OS-unfilled position there is
`0 ^^^` the `i`-th PRNG draw. -/
theorem span_xors_onto_prior_contents (mt : Nat → Nat → Nat) (env : ReadEnv)
    (g : RandomGenerator) :
    (∀ (buf : List Nat) (i : Nat),
      (SourceRandomOctets g env buf).2 ≤ i → i < buf.length →
      nthOct (GetRandomOctetsSpan mt env g buf).1 i =
        nthOct buf i ^^^ prngOctetAt mt g i) ∧
    (g.pseudo_random_only = true →
      ∀ (buf : List Nat) (i : Nat), i < buf.length →
      nthOct (GetRandomOctetsSpan mt env g buf).1 i =
        nthOct buf i ^^^ prngOctetAt mt g i) ∧
    (∀ (n i : Nat),
      (SourceRandomOctets g env (List.replicate n 0)).2 ≤ i → i < n →
      nthOct (GetRandomOctetsAlloc mt env g n).1 i =
        0 ^^^ prngOctetAt mt g i) := by
  have hmain : ∀ (buf : List Nat) (i : Nat),
      (SourceRandomOctets g env buf).2 ≤ i → i < buf.length →
      nthOct (GetRandomOctetsSpan mt env g buf).1 i =
        nthOct buf i ^^^ prngOctetAt mt g i := by
    intro buf i hcount hi
    have hbl : buf.length ≠ 0 := by omega
    rw [getRandomOctetsSpan_eq mt env g buf hbl,
      xorWithPrng_nth mt g _ i (by rw [sourceRandomOctets_length]; exact hi),
      sourceRandomOctets_suffix g env buf i hcount]
  refine ⟨hmain, ?_, ?_⟩
  · intro hpro buf i hi
    have h0 : (SourceRandomOctets g env buf).2 = 0 := by
      rw [sourceRandomOctets_pro g env buf hpro]
    exact hmain buf i (by omega) hi
  · intro n i hcount hi
    have hn : n ≠ 0 := by omega
    rw [getRandomOctetsAlloc_eq mt env g n hn,
      xorWithPrng_nth mt g _ i
        (by rw [sourceRandomOctets_length]; simpa using hi),
      sourceRandomOctets_suffix g env _ i hcount, nthOct_replicate_zero]

/-- Instance of `span_xors_onto_prior_contents` at a concrete
pseudo-random-only generator over the prior buffer [10, 20]: position 0
is the prior octet 10 XOR the 0-th PRNG draw. -/
theorem span_xors_onto_prior_contents_witness :
    nthOct (GetRandomOctetsSpan (fun s i => s * 31 + i)
        ⟨fun _ => [], fun _ => []⟩
        (RandomGenerator.construct true ⟨-1, -1, some 7, 11, 13⟩) [10, 20]).1 0 =
      nthOct [10, 20] 0 ^^^
        prngOctetAt (fun s i => s * 31 + i)
          (RandomGenerator.construct true ⟨-1, -1, some 7, 11, 13⟩) 0 :=
  (span_xors_onto_prior_contents (fun s i => s * 31 + i)
    ⟨fun _ => [], fun _ => []⟩
    (RandomGenerator.construct true ⟨-1, -1, some 7, 11, 13⟩)).2.1 rfl
    [10, 20] 0 (by decide)

end Terra.Random
